import Mathlib

/-!
Verification of the numerical analytics layer of src/quant_platform.py:
the VPA signal classifier (analyze_stock_strength), the indicator engine
(calculate_indicators), the crossover signal logic (page_analysis), the
spectral-analysis selection logic (page_fft) and the Monte Carlo path
simulation (page_monte_carlo).  Prices, percentage moves and volume
ratios are embedded as rationals; the IEEE special values produced by
the pandas/NumPy pipeline (inf from division by zero, NaN from 0/0 and
from undefined rolling windows) are represented explicitly by the `XQ`
type.  Transcendental float routines (np.log, np.exp, sqrt) have no
exact rational counterpart; where a claim depends on them they enter as
explicit function parameters, and the quantities the code derives from
them (log returns, DFT coefficient magnitudes) are taken as modelled
inputs, with the surrounding arithmetic embedded exactly.
-/

/-- The enumerated VPA signal set of §4.4, in source order: the seven
branches of the if/elif chain in analyze_stock_strength
(src/quant_platform.py lines 222-235). -/
inductive VPASignal where
  | strongUpVolume
  | quietAccumulation
  | strongDownVolume
  | quietDistribution
  | limitUp
  | limitDown
  | neutral
deriving DecidableEq

/-- The VPA signal chain of analyze_stock_strength (src/quant_platform.py
lines 222-235), branch for branch: `if pct_chg > 1.5 and vol_ratio > 1.2`,
`elif pct_chg > 0.5 and vol_ratio < 0.8`, `elif pct_chg < -1.5 and
vol_ratio > 1.2`, `elif pct_chg < -0.5 and vol_ratio < 0.8`,
`elif pct_chg > 3.0`, `elif pct_chg < -3.0`, `else` neutral. -/
def classify_move (pct vol : ℚ) : VPASignal :=
  if pct > 3/2 ∧ vol > 6/5 then .strongUpVolume
  else if pct > 1/2 ∧ vol < 4/5 then .quietAccumulation
  else if pct < -(3/2) ∧ vol > 6/5 then .strongDownVolume
  else if pct < -(1/2) ∧ vol < 4/5 then .quietDistribution
  else if pct > 3 then .limitUp
  else if pct < -3 then .limitDown
  else .neutral

/-- The evaluation order as §4.4 of the spec words it: strong-move
thresholds (1.5 % with volume ratio above 1.2) first, then the quiet
thresholds (0.5 % with volume ratio below 0.8), then the 3 % extremes,
else neutral, each band split by the sign of the move. -/
def classifySpecOrder (pct vol : ℚ) : VPASignal :=
  if pct > 3/2 ∧ vol > 6/5 then .strongUpVolume
  else if pct < -(3/2) ∧ vol > 6/5 then .strongDownVolume
  else if pct > 1/2 ∧ vol < 4/5 then .quietAccumulation
  else if pct < -(1/2) ∧ vol < 4/5 then .quietDistribution
  else if pct > 3 then .limitUp
  else if pct < -3 then .limitDown
  else .neutral

/-- Arithmetic mean of a list of rationals (pandas `.mean()` on a series
without missing values). -/
def meanQ (xs : List ℚ) : ℚ := xs.sum / xs.length

/-- Volume-ratio computation of analyze_stock_strength
(src/quant_platform.py line 216): `latest['Volume'] / avg_vol if
avg_vol > 0 else 0`, with `avg_vol = hist['Volume'].mean()` over the
10-day history and the latest volume being the last row. -/
def vol_ratio_of (volumes : List ℚ) : ℚ :=
  if meanQ volumes > 0 then volumes.getLastD 0 / meanQ volumes else 0

/-- The rolling mean value at index i for window w (pandas
`Series.rolling(window=w).mean()`): undefined (NaN) until w observations
exist, afterwards the arithmetic mean of entries i-w+1 .. i. -/
def windowMean (w : ℕ) (xs : List ℚ) (i : ℕ) : Option ℚ :=
  if w ≤ i + 1 ∧ i < xs.length then
    some (((xs.drop (i + 1 - w)).take w).sum / (w : ℚ))
  else none

/-- The full rolling-mean column, one entry per input row. -/
def rollingMean (w : ℕ) (xs : List ℚ) : List (Option ℚ) :=
  (List.range xs.length).map (windowMean w xs)

/-- Successive deltas of the close column (pandas `Series.diff()` without
its leading NaN): entry i is close[i+1] - close[i]. -/
def deltasOf (closes : List ℚ) : List ℚ :=
  List.zipWith (fun a b => b - a) closes closes.tail

/-- The series `delta.where(delta > 0, 0)` of calculate_indicators
(src/quant_platform.py line 245): the leading NaN of `diff()` fails the
`> 0` test and becomes 0, every later entry is the delta when positive,
else 0. -/
def gainsOf (closes : List ℚ) : List ℚ :=
  match closes with
  | [] => []
  | _ :: _ => 0 :: (deltasOf closes).map (fun d => if 0 < d then d else 0)

/-- The series `(-delta.where(delta < 0, 0))` of calculate_indicators
(src/quant_platform.py line 246): the leading NaN fails the `< 0` test
and becomes 0, every later entry is the negated delta when negative,
else 0. -/
def lossesOf (closes : List ℚ) : List ℚ :=
  match closes with
  | [] => []
  | _ :: _ => 0 :: (deltasOf closes).map (fun d => if d < 0 then -d else 0)

/-- Extended rationals standing for the IEEE double values that the
pandas RSI pipeline can produce: a finite value, positive or negative
infinity (division of a nonzero value by zero), or NaN (0/0, or a not
yet defined rolling window). -/
inductive XQ where
  | nan : XQ
  | posInf : XQ
  | negInf : XQ
  | fin : ℚ → XQ
deriving DecidableEq

/-- IEEE division of finite doubles, as NumPy performs it for
`rs = gain / loss`: a nonzero numerator over zero gives a signed
infinity, 0/0 gives NaN, otherwise the exact quotient. -/
def fdiv (a b : ℚ) : XQ :=
  if b = 0 then (if 0 < a then .posInf else if a < 0 then .negInf else .nan)
  else .fin (a / b)

/-- IEEE evaluation of `1 + rs`. -/
def onePlus : XQ → XQ
  | .nan => .nan
  | .posInf => .posInf
  | .negInf => .negInf
  | .fin q => .fin (1 + q)

/-- IEEE evaluation of `100 / x` for the nonnegative operands arising in
the RSI pipeline: 100 over an infinity is 0, over NaN is NaN, over zero
is positive infinity, otherwise exact. -/
def hundredDiv : XQ → XQ
  | .nan => .nan
  | .posInf => .fin 0
  | .negInf => .fin 0
  | .fin q => if q = 0 then .posInf else .fin (100 / q)

/-- IEEE evaluation of `100 - x`. -/
def sub100 : XQ → XQ
  | .nan => .nan
  | .posInf => .negInf
  | .negInf => .posInf
  | .fin q => .fin (100 - q)

/-- The RSI formula of calculate_indicators (src/quant_platform.py lines
247-248) applied to one pair of rolling means: `rs = gain / loss;
RSI = 100 - (100 / (1 + rs))`, with IEEE special-value propagation. -/
def rsiVal (gain loss : ℚ) : XQ :=
  sub100 (hundredDiv (onePlus (fdiv gain loss)))

/-- The RSI(14) value at row i: NaN while either 14-bar rolling mean is
still undefined, otherwise rsiVal applied to the two means. -/
def rsiAt (closes : List ℚ) (i : ℕ) : XQ :=
  match windowMean 14 (gainsOf closes) i, windowMean 14 (lossesOf closes) i with
  | some g, some l => rsiVal g l
  | _, _ => XQ.nan

/-- The RSI column, one entry per input row. -/
def rsiSeries (closes : List ℚ) : List XQ :=
  (List.range closes.length).map (rsiAt closes)

/-- The OHLCV data frame extended with the derived indicator columns.
The source works on one pandas DataFrame; base columns are the fetched
series, derived columns are whatever the frame currently carries (empty
before any indicator call). -/
structure Frame where
  opn : List ℚ
  high : List ℚ
  low : List ℚ
  close : List ℚ
  volume : List ℚ
  maShort : List (Option ℚ)
  maLong : List (Option ℚ)
  rsi : List XQ
deriving DecidableEq

/-- calculate_indicators (src/quant_platform.py lines 241-249): assigns
the MA_Short, MA_Long and RSI columns, all computed from the Close
column; the in-place pandas column assignments are embedded as state
passing, so the caller's frame after the call is the returned frame. -/
def calculate_indicators (df : Frame) (ma_short ma_long : ℕ) : Frame :=
  { df with
    maShort := rollingMean ma_short df.close
    maLong := rollingMean ma_long df.close
    rsi := rsiSeries df.close }

/-- The Signal column of page_analysis (src/quant_platform.py line 290):
`np.where(df['MA_Short'] > df['MA_Long'], 1.0, 0.0)`.  A NaN comparison
is False in NumPy, so the signal is 0 wherever either moving average is
still undefined. -/
def sigAt (sw lw : ℕ) (closes : List ℚ) (i : ℕ) : ℚ :=
  match windowMean sw closes i, windowMean lw closes i with
  | some a, some b => if a > b then 1 else 0
  | _, _ => 0

/-- The Position column of page_analysis (src/quant_platform.py line
291): `df['Signal'].diff()`, NaN at row 0.  A buy (GOLDEN) marker is a
row with Position = 1, a sell (DEATH) marker a row with Position = -1
(lines 302-305). -/
def positionAt (sw lw : ℕ) (closes : List ℚ) (i : ℕ) : Option ℚ :=
  if i = 0 then none
  else some (sigAt sw lw closes i - sigAt sw lw closes (i - 1))

/-- The bin indices surviving the `freq > 0` mask of page_fft
(src/quant_platform.py line 497): np.fft.fftfreq(n) is
[0, 1, ..., (n-1)/2, -(n/2), ..., -1] / n, so the strictly positive
frequencies are k/n for k = 1 .. (n-1)/2 (integer division). -/
def posBins (n : ℕ) : List ℕ := List.range' 1 ((n - 1) / 2)

/-- The retained spectral components of page_fft (src/quant_platform.py
lines 497-502) as (period, amplitude) pairs: for bin k the period is
1/freq = n/k days and the amplitude is `2.0 * np.abs(fft_val / n)`,
i.e. 2*mag(k)/n.  The coefficient magnitude mag k stands for
|fft(detrended)[k]|, which is transcendental in the bar values and is
therefore a parameter of the embedding; the masking, normalisation,
period conversion and selection arithmetic around it is exact. -/
def componentsOf (n : ℕ) (mag : ℕ → ℚ) : List (ℚ × ℚ) :=
  (posBins n).map (fun (k : ℕ) => ((n : ℚ) / (k : ℚ), 2 * mag k / (n : ℚ)))

/-- The band filter of page_fft (src/quant_platform.py line 511):
`(periods >= 5) & (periods <= 200)`. -/
def validComponents (n : ℕ) (mag : ℕ → ℚ) : List (ℚ × ℚ) :=
  (componentsOf n mag).filter (fun c => decide (5 ≤ c.1 ∧ c.1 ≤ 200))

/-- First maximum by amplitude, the semantics of `np.argmax` on the
filtered amplitude array (src/quant_platform.py line 520): the head is
kept unless a strictly larger amplitude appears later. -/
def argmaxAmp : List (ℚ × ℚ) → Option (ℚ × ℚ)
  | [] => none
  | c :: rest =>
    match argmaxAmp rest with
    | none => some c
    | some b => if b.2 > c.2 then some b else some c

/-- Outcome of the page_fft control flow (src/quant_platform.py lines
485-522): an empty download renders nothing at all (the `if not
df.empty` has no else branch); a nonempty series whose filtered band is
empty reaches `np.argmax` on an empty array, which raises ValueError;
otherwise the dominant period and amplitude are reported.  The
insufficientData constructor represents the InsufficientDataError the
spec postulates in §7; the source defines no such error and never
produces this outcome. -/
inductive FFTOutcome where
  | noData
  | valueError
  | insufficientData
  | ok (period : ℚ) (amplitude : ℚ)
deriving DecidableEq

/-- The spectral pipeline of page_fft from the `df.empty` guard to the
dominant-cycle report, over series length n and modelled coefficient
magnitudes. -/
def page_fft (n : ℕ) (mag : ℕ → ℚ) : FFTOutcome :=
  if n = 0 then .noData
  else
    match argmaxAmp (validComponents n mag) with
    | none => .valueError
    | some c => .ok c.1 c.2

/-- Log returns of page_monte_carlo (src/quant_platform.py line 447):
`np.log(df['Close'] / df['Close'].shift(1))`, the leading NaN excluded
as pandas statistics skip it; np.log is transcendental and enters as
the parameter lnf. -/
def logReturns (lnf : ℚ → ℚ) (closes : List ℚ) : List ℚ :=
  List.zipWith (fun a b => lnf (b / a)) closes closes.tail

/-- Pandas `Series.mean()` with NaN skipping: the mean over the list of
real (non-NaN) entries, NaN (none) when no entry remains. -/
def meanO (xs : List ℚ) : Option ℚ :=
  if xs.length = 0 then none else some (meanQ xs)

/-- Pandas `Series.var()` (ddof = 1, NaN skipping): sum of squared
deviations over length - 1; NaN (none) for fewer than two entries
(0/0 for a single entry). -/
def varO (xs : List ℚ) : Option ℚ :=
  if xs.length < 2 then none
  else some ((xs.map (fun x => (x - meanQ xs) ^ 2)).sum / ((xs.length : ℚ) - 1))

/-- The drift of page_monte_carlo (src/quant_platform.py line 450):
`u - 0.5 * var`, NaN whenever either statistic is NaN. -/
def driftO (xs : List ℚ) : Option ℚ :=
  match meanO xs, varO xs with
  | some u, some v => some (u - v / 2)
  | _, _ => none

/-- The path recursion of page_monte_carlo (src/quant_platform.py lines
455-461): `price_paths[0] = last close` and
`price_paths[t] = price_paths[t-1] * exp(drift + stdev * Z[t])` for
t = 1 .., with IEEE NaN propagation: a NaN drift or NaN stdev makes
every later step NaN.  expf models np.exp, sO models the stdev (the
square root of varO, characterised in the theorems by its square), and
Z the standard-normal draw matrix. -/
def stepMul (expf : ℚ → ℚ) (dO sO : Option ℚ) (z : ℚ) (pO : Option ℚ) :
    Option ℚ :=
  match pO, dO, sO with
  | some p, some d, some s => some (p * expf (d + s * z))
  | _, _, _ => none

def pathVal (expf : ℚ → ℚ) (dO sO : Option ℚ) (s0 : ℚ) (Z : ℕ → ℕ → ℚ)
    (i : ℕ) : ℕ → Option ℚ
  | 0 => some s0
  | t + 1 => stepMul expf dO sO (Z (t + 1) i) (pathVal expf dO sO s0 Z i t)

/-- The Monte Carlo page (src/quant_platform.py lines 444-468): an
empty download shows an error message and computes nothing (none);
otherwise the path matrix is produced, entry (i, t) being path i at
step t, with NaN entries represented as none. -/
def page_monte_carlo (lnf expf : ℚ → ℚ) (sO : Option ℚ) (Z : ℕ → ℕ → ℚ)
    (closes : List ℚ) : Option (ℕ → ℕ → Option ℚ) :=
  match closes.getLast? with
  | none => none
  | some s0 =>
    some (fun i t => pathVal expf (driftO (logReturns lnf closes)) sO s0 Z i t)

/-- Entry (i, t) of a Monte Carlo result: none when the page produced
nothing, some none for a NaN entry, some (some x) for a real price. -/
def mcEntry (res : Option (ℕ → ℕ → Option ℚ)) (i t : ℕ) : Option (Option ℚ) :=
  res.map (fun f => f i t)

/-- Modelled from the spec: the InsufficientDataError of §7, raised by
simulate on a series of fewer than 2 bars.  The source page
(page_monte_carlo) has no such error. -/
inductive SimErr where
  | insufficientData
deriving DecidableEq

/-- A SimulationEnsemble of §3: the simulated paths and their
elementwise mean path. -/
structure SimulationEnsemble where
  paths : List (List ℚ)
  meanPath : List ℚ
deriving DecidableEq

/-- Modelled from the spec: the variance estimator of §4.3 step 2
(the source page uses pandas ddof-1 variance; totalised over ℚ, with
the empty and singleton cases irrelevant behind the 2-bar guard). -/
def sampleVar (xs : List ℚ) : ℚ :=
  (xs.map (fun x => (x - meanQ xs) ^ 2)).sum / ((xs.length : ℚ) - 1)

/-- Modelled from the spec: the seeded
simulate(series, horizon_days, path_count, rng_seed) of §4.3, which is
absent from the source — page_monte_carlo (src/quant_platform.py lines
453-455) draws `np.random.normal(0, 1, (days, simulations))` from the
unseeded process-level generator and accepts no rng_seed.  gen models
the deterministic seeded stream of standard-normal draws required by
§4.3 (gen seed t i is draw t of path i); lnf, expf and sqrtf model the
transcendental np.log, np.exp and sqrt.  Steps follow §4.3: log
returns, drift = mean - var/2, sd = sqrt var, path value 0 = last
close, value t = value (t-1) * exp(drift + sd * Z_t), ensemble mean
elementwise across paths. -/
def simulate (gen : ℕ → ℕ → ℕ → ℚ) (lnf expf sqrtf : ℚ → ℚ)
    (closes : List ℚ) (horizon path_count rng_seed : ℕ) :
    Except SimErr SimulationEnsemble :=
  if closes.length < 2 then .error .insufficientData
  else
    let rs := logReturns lnf closes
    let drift := meanQ rs - sampleVar rs / 2
    let sd := sqrtf (sampleVar rs)
    let s0 := closes.getLastD 0
    let ps := (List.range path_count).map (fun (i : ℕ) =>
      List.scanl (fun p t => p * expf (drift + sd * gen rng_seed t i)) s0
        (List.range' 1 (horizon - 1)))
    .ok { paths := ps
          meanPath := (List.range horizon).map (fun (t : ℕ) =>
            meanQ (ps.map (fun pth => pth.getD t 0))) }

/-- A concrete five-bar frame holding the spec's manual example closes
[1,2,3,4,5], used by the C8 witness. -/
def exampleFrame5 : Frame :=
  { opn := [], high := [], low := [], close := [(1 : ℚ), 2, 3, 4, 5],
    volume := [], maShort := [], maLong := [], rsi := [] }

theorem classify_eq_specOrder (p v : ℚ) :
    classify_move p v = classifySpecOrder p v := by
  unfold classify_move classifySpecOrder
  by_cases h1 : p > 3/2 <;> by_cases h2 : p < -(3/2) <;>
    by_cases h3 : p > 1/2 <;> by_cases h4 : p < -(1/2) <;>
    by_cases h7 : v > 6/5 <;> by_cases h8 : v < 4/5 <;>
    simp only [h1, h2, h3, h4, h7, h8, true_and, false_and, and_true,
      and_false, if_true, if_false] <;> first | rfl | linarith

/-- C1 counterexample: the claim asserts classify_move(-4.0, 0.5) =
LIMIT_DOWN, with the extreme band winning over the quiet band.  In the
code the quiet band (`pct_chg < -0.5 and vol_ratio < 0.8`) is checked
before the 3 % extremes, so the input (-4.0, 0.5) matches the quiet
branch and yields QUIET_DISTRIBUTION, not LIMIT_DOWN. -/
theorem c1_counterexample :
    classify_move (-4) (1/2) ≠ VPASignal.limitDown ∧
    classify_move (-4) (1/2) = VPASignal.quietDistribution := by
  have h : classify_move (-4) (1/2) = VPASignal.quietDistribution := by
    norm_num [classify_move]
  refine ⟨?_, h⟩
  rw [h]
  decide

/-- C1 (amended): classify_move evaluates the overlapping bands in the
fixed order strong-move thresholds first, then quiet thresholds, then
the 3 % extremes, else neutral; classify_move(2.0, 1.5) =
STRONG_UP_VOLUME, classify_move(0.2, 1.5) = NEUTRAL, and
classify_move(-4.0, 0.5) = QUIET_DISTRIBUTION — the quiet band wins over
the extreme band when both could apply by magnitude alone, because the
extremes are only reached when no earlier band matched. -/
theorem c1_classify_order :
    (∀ p v : ℚ, classify_move p v = classifySpecOrder p v) ∧
    classify_move 2 (3/2) = VPASignal.strongUpVolume ∧
    classify_move (1/5) (3/2) = VPASignal.neutral ∧
    classify_move (-4) (1/2) = VPASignal.quietDistribution := by
  refine ⟨classify_eq_specOrder, ?_, ?_, ?_⟩ <;> norm_num [classify_move]

/-- C10: whenever the 10-day average volume is zero, the volume-ratio
computation takes the guarded `else 0` branch of line 216 and never
divides: the returned ratio is 0. -/
theorem c10_vol_ratio_guard (volumes : List ℚ)
    (h : meanQ volumes = 0) : vol_ratio_of volumes = 0 := by
  unfold vol_ratio_of
  rw [h]
  simp

/-- C10 witness: a concrete 3-day history with all volumes zero has
average volume 0 and volume ratio 0. -/
theorem c10_witness :
    meanQ [(0 : ℚ), 0, 0] = 0 ∧ vol_ratio_of [(0 : ℚ), 0, 0] = 0 :=
  ⟨by norm_num [meanQ], c10_vol_ratio_guard [(0 : ℚ), 0, 0] (by norm_num [meanQ])⟩

theorem length_rollingMean (w : ℕ) (xs : List ℚ) :
    (rollingMean w xs).length = xs.length := by
  simp [rollingMean]

theorem rollingMean_getElem? (w : ℕ) (xs : List ℚ) (i : ℕ) (h : i < xs.length) :
    (rollingMean w xs)[i]? = some (windowMean w xs i) := by
  simp [rollingMean, List.getElem?_map, List.getElem?_range, h]

theorem windowMean_isSome (w : ℕ) (xs : List ℚ) (i : ℕ) :
    (windowMean w xs i).isSome ↔ (w ≤ i + 1 ∧ i < xs.length) := by
  unfold windowMean
  split_ifs with h <;> simp [h]

/-- C6: calculate_indicators only assigns the derived columns MA_Short,
MA_Long and RSI; every original OHLCV column of the caller's frame is
identical before and after the call, and a repeated call with identical
windows on the already-extended frame yields an identical frame
(pure-function property: the derived columns are recomputed from the
unchanged Close column). -/
theorem c6_frame_preserved (df : Frame) (ma_short ma_long : ℕ) :
    (calculate_indicators df ma_short ma_long).opn = df.opn ∧
    (calculate_indicators df ma_short ma_long).high = df.high ∧
    (calculate_indicators df ma_short ma_long).low = df.low ∧
    (calculate_indicators df ma_short ma_long).close = df.close ∧
    (calculate_indicators df ma_short ma_long).volume = df.volume ∧
    calculate_indicators (calculate_indicators df ma_short ma_long) ma_short ma_long =
      calculate_indicators df ma_short ma_long := by
  refine ⟨rfl, rfl, rfl, rfl, rfl, rfl⟩

/-- C8: for a frame whose close column has at least ma_long rows, the
MA_Long column has exactly one entry per row, its first ma_long - 1
entries are undefined, and from index ma_long - 1 on the entry is the
arithmetic mean (sum divided by number of values) of the ma_long closes
ending at that index — e.g. closes [1,2,3,4,5] with window 3 give mean
2 at index 2, 3 at index 3 and 4 at index 4. -/
theorem c8_long_ma (df : Frame) (ma_short ma_long : ℕ)
    (_hw : 0 < ma_long) (hlen : ma_long ≤ df.close.length) :
    ((calculate_indicators df ma_short ma_long).maLong).length = df.close.length ∧
    (∀ i, i + 1 < ma_long →
      ((calculate_indicators df ma_short ma_long).maLong)[i]? = some none) ∧
    (∀ i, ma_long ≤ i + 1 → i < df.close.length →
      ((calculate_indicators df ma_short ma_long).maLong)[i]? =
        some (some (meanQ ((df.close.drop (i + 1 - ma_long)).take ma_long)))) := by
  refine ⟨length_rollingMean _ _, ?_, ?_⟩
  · intro i hi
    have hil : i < df.close.length := by omega
    have h1 : ((calculate_indicators df ma_short ma_long).maLong)[i]? =
        some (windowMean ma_long df.close i) := rollingMean_getElem? _ _ _ hil
    rw [h1]
    unfold windowMean
    rw [if_neg]
    omega
  · intro i hi hil
    have h1 : ((calculate_indicators df ma_short ma_long).maLong)[i]? =
        some (windowMean ma_long df.close i) := rollingMean_getElem? _ _ _ hil
    rw [h1]
    unfold windowMean
    rw [if_pos ⟨hi, hil⟩]
    have hslice : ((df.close.drop (i + 1 - ma_long)).take ma_long).length = ma_long := by
      rw [List.length_take, List.length_drop]
      omega
    unfold meanQ
    rw [hslice]

theorem sigAt_mem (sw lw : ℕ) (closes : List ℚ) (i : ℕ) :
    sigAt sw lw closes i = 0 ∨ sigAt sw lw closes i = 1 := by
  unfold sigAt
  cases hs : windowMean sw closes i <;> cases hl : windowMean lw closes i <;> simp
  exact le_or_lt _ _

theorem sigAt_eq_one_defined (sw lw : ℕ) (closes : List ℚ) (i : ℕ)
    (h : sigAt sw lw closes i = 1) :
    (windowMean sw closes i).isSome ∧ (windowMean lw closes i).isSome := by
  unfold sigAt at h
  cases hs : windowMean sw closes i <;> cases hl : windowMean lw closes i <;>
    rw [hs, hl] at h
  · norm_num at h
  · norm_num at h
  · norm_num at h
  · simp

/-- C3 counterexample: with closes [1,2], short window 1 and long window
2, the code emits a buy (GOLDEN) marker at index 1 (Position = 1) even
though the long moving average is undefined at the previous bar, index
0 — so the claim that crossover events occur only at transitions between
consecutive bars where both moving averages are defined is false. -/
theorem c3_counterexample :
    positionAt 1 2 [(1 : ℚ), 2] 1 = some 1 ∧
    windowMean 2 [(1 : ℚ), 2] 0 = none := by
  constructor
  · norm_num [positionAt, sigAt, windowMean]
  · norm_num [windowMean]

/-- C3 (amended): no buy/sell marker is emitted at indices before both
moving averages are defined: every Position = plus-or-minus 1 marker sits
at an index where the long (hence also the short) moving average is
defined, and every marker at an index at or beyond long_window also has
both averages defined on the previous bar.  However, at the first index
where both averages are defined (long_window - 1) a marker can fire with
the previous bar's long average still undefined, because NumPy evaluates
the NaN comparison as False and treats the undefined region as signal
0. -/
theorem c3_events_on_defined_bars (closes : List ℚ) (sw lw i : ℕ)
    (hsw : 0 < sw) (hwin : sw < lw) (hil : i < closes.length)
    (hev : positionAt sw lw closes i = some 1 ∨
      positionAt sw lw closes i = some (-1)) :
    lw ≤ i + 1 ∧
    (windowMean sw closes i).isSome ∧ (windowMean lw closes i).isSome ∧
    (lw ≤ i →
      (windowMean sw closes (i - 1)).isSome ∧
      (windowMean lw closes (i - 1)).isSome) := by
  by_cases hi0 : i = 0
  · simp [positionAt, hi0] at hev
  have hev2 : sigAt sw lw closes i - sigAt sw lw closes (i - 1) = 1 ∨
      sigAt sw lw closes i - sigAt sw lw closes (i - 1) = -1 := by
    rcases hev with h | h <;> [left; right] <;>
      simpa [positionAt, hi0] using h
  have hone : sigAt sw lw closes i = 1 ∨ sigAt sw lw closes (i - 1) = 1 := by
    rcases sigAt_mem sw lw closes i with h1 | h1 <;>
      rcases sigAt_mem sw lw closes (i - 1) with h2 | h2 <;>
      rcases hev2 with h3 | h3 <;>
      rw [h1, h2] at h3 <;> first | (left; exact h1) | (right; exact h2) | norm_num at h3
  have hlw : lw ≤ i + 1 := by
    rcases hone with h | h
    · exact ((windowMean_isSome lw closes i).mp (sigAt_eq_one_defined sw lw closes i h).2).1
    · have := ((windowMean_isSome lw closes (i - 1)).mp
        (sigAt_eq_one_defined sw lw closes (i - 1) h).2).1
      omega
  refine ⟨hlw, (windowMean_isSome sw closes i).mpr ⟨by omega, hil⟩,
    (windowMean_isSome lw closes i).mpr ⟨hlw, hil⟩, ?_⟩
  intro hlwi
  exact ⟨(windowMean_isSome sw closes (i - 1)).mpr ⟨by omega, by omega⟩,
    (windowMean_isSome lw closes (i - 1)).mpr ⟨by omega, by omega⟩⟩

/-- C3 witness: closes [1,2,3] with windows 1 and 2 produce a buy marker
at index 1, and there both moving averages are indeed defined. -/
theorem c3_witness :
    2 ≤ 1 + 1 ∧
    (windowMean 1 [(1 : ℚ), 2, 3] 1).isSome ∧
    (windowMean 2 [(1 : ℚ), 2, 3] 1).isSome ∧
    (2 ≤ 1 →
      (windowMean 1 [(1 : ℚ), 2, 3] 0).isSome ∧
      (windowMean 2 [(1 : ℚ), 2, 3] 0).isSome) :=
  c3_events_on_defined_bars [(1 : ℚ), 2, 3] 1 2 1 (by norm_num) (by norm_num)
    (by norm_num)
    (Or.inl (by norm_num [positionAt, sigAt, windowMean]))

theorem gainsOf_cons (closes : List ℚ) (h : closes ≠ []) :
    gainsOf closes =
      0 :: (deltasOf closes).map (fun d => if 0 < d then d else 0) := by
  cases closes with
  | nil => exact absurd rfl h
  | cons c rest => rfl

theorem lossesOf_cons (closes : List ℚ) (h : closes ≠ []) :
    lossesOf closes =
      0 :: (deltasOf closes).map (fun d => if d < 0 then -d else 0) := by
  cases closes with
  | nil => exact absurd rfl h
  | cons c rest => rfl

theorem length_deltasOf (closes : List ℚ) :
    (deltasOf closes).length = closes.length - 1 := by
  simp [deltasOf]

theorem gainsOf_nonneg (closes : List ℚ) : ∀ x ∈ gainsOf closes, 0 ≤ x := by
  intro x hx
  unfold gainsOf at hx
  cases closes with
  | nil => simp at hx
  | cons c rest =>
    rcases List.mem_cons.mp hx with h | h
    · simp [h]
    · rcases List.mem_map.mp h with ⟨d, _, hfd⟩
      rw [← hfd]
      split_ifs with h1
      · exact le_of_lt h1
      · exact le_refl 0

theorem lossesOf_nonneg (closes : List ℚ) : ∀ x ∈ lossesOf closes, 0 ≤ x := by
  intro x hx
  unfold lossesOf at hx
  cases closes with
  | nil => simp at hx
  | cons c rest =>
    rcases List.mem_cons.mp hx with h | h
    · simp [h]
    · rcases List.mem_map.mp h with ⟨d, _, hfd⟩
      rw [← hfd]
      split_ifs with h1
      · linarith
      · exact le_refl 0

theorem windowMean_nonneg (w : ℕ) (xs : List ℚ) (i : ℕ) (m : ℚ)
    (hxs : ∀ x ∈ xs, 0 ≤ x) (h : windowMean w xs i = some m) : 0 ≤ m := by
  unfold windowMean at h
  split_ifs at h with hc
  rw [(Option.some.inj h).symm]
  apply div_nonneg
  · apply List.sum_nonneg
    intro x hx
    exact hxs x (List.drop_subset _ _ (List.take_subset _ _ hx))
  · exact Nat.cast_nonneg w

theorem rsiVal_pos_zero (g : ℚ) (hg : 0 < g) : rsiVal g 0 = XQ.fin 100 := by
  unfold rsiVal fdiv
  rw [if_pos rfl, if_pos hg]
  simp [onePlus, hundredDiv, sub100]

theorem rsiVal_fin_bounds (g l q : ℚ) (hg : 0 ≤ g) (hl : 0 ≤ l)
    (h : rsiVal g l = XQ.fin q) : 0 ≤ q ∧ q ≤ 100 := by
  unfold rsiVal fdiv at h
  by_cases hl0 : l = 0
  · rw [if_pos hl0] at h
    by_cases hg0 : 0 < g
    · rw [if_pos hg0] at h
      simp [onePlus, hundredDiv, sub100] at h
      constructor <;> linarith [h]
    · rw [if_neg hg0, if_neg (by linarith)] at h
      simp [onePlus, hundredDiv, sub100] at h
  · rw [if_neg hl0] at h
    have hlpos : 0 < l := lt_of_le_of_ne hl (Ne.symm hl0)
    have hrs : 0 ≤ g / l := div_nonneg hg hl
    have h1 : (0 : ℚ) < 1 + g / l := by linarith
    have h2 : (1 : ℚ) + g / l ≠ 0 := ne_of_gt h1
    simp [onePlus, hundredDiv, sub100, h2] at h
    have hx1 : 0 < 100 / (1 + g / l) := div_pos (by norm_num) h1
    have hx2 : 100 / (1 + g / l) ≤ 100 := by
      apply div_le_self
      · norm_num
      · linarith
    constructor <;> linarith [h, hx1, hx2]

theorem length_rsiSeries (closes : List ℚ) :
    (rsiSeries closes).length = closes.length := by
  simp [rsiSeries]

theorem rsiSeries_getElem? (closes : List ℚ) (i : ℕ) (h : i < closes.length) :
    (rsiSeries closes)[i]? = some (rsiAt closes i) := by
  simp [rsiSeries, List.getElem?_map, List.getElem?_range, h]

theorem rsi_defined_bounds (closes : List ℚ) (i : ℕ) (q : ℚ)
    (h : (rsiSeries closes)[i]? = some (XQ.fin q)) : 0 ≤ q ∧ q ≤ 100 := by
  by_cases hi : i < closes.length
  · rw [rsiSeries_getElem? closes i hi] at h
    have hr : rsiAt closes i = XQ.fin q := Option.some.inj h
    unfold rsiAt at hr
    cases hg : windowMean 14 (gainsOf closes) i with
    | none =>
      rw [hg] at hr
      cases hl : windowMean 14 (lossesOf closes) i <;> rw [hl] at hr <;> simp at hr
    | some g =>
      cases hl : windowMean 14 (lossesOf closes) i with
      | none => rw [hg, hl] at hr; simp at hr
      | some l =>
        rw [hg, hl] at hr
        exact rsiVal_fin_bounds g l q
          (windowMean_nonneg 14 (gainsOf closes) i g (gainsOf_nonneg closes) hg)
          (windowMean_nonneg 14 (lossesOf closes) i l (lossesOf_nonneg closes) hl)
          hr
  · exfalso
    rw [List.getElem?_eq_none (by rw [length_rsiSeries]; omega)] at h
    exact Option.noConfusion h

theorem rsi_all_gains (closes : List ℚ) (hn : 15 ≤ closes.length)
    (hpos : ∀ d ∈ (deltasOf closes).drop (closes.length - 15), 0 < d) :
    (rsiSeries closes)[closes.length - 1]? = some (XQ.fin 100) := by
  have hne : closes ≠ [] := by
    intro hc
    rw [hc] at hn
    simp at hn
  have hlen : (gainsOf closes).length = closes.length := by
    rw [gainsOf_cons closes hne]
    simp [length_deltasOf]
    omega
  have hlenL : (lossesOf closes).length = closes.length := by
    rw [lossesOf_cons closes hne]
    simp [length_deltasOf]
    omega
  set n := closes.length with hdefn
  set T := (deltasOf closes).drop (n - 15) with hdefT
  have hTlen : T.length = 14 := by
    rw [hdefT, List.length_drop, length_deltasOf]
    omega
  -- the gain window: the last 14 entries of the gains column are the
  -- mapped trailing deltas
  have hdropG : (gainsOf closes).drop (n - 1 + 1 - 14) =
      T.map (fun d => if 0 < d then d else 0) := by
    rw [gainsOf_cons closes hne]
    have he : n - 1 + 1 - 14 = (n - 15) + 1 := by omega
    rw [he, List.drop_succ_cons, ← List.map_drop]
  have hdropL : (lossesOf closes).drop (n - 1 + 1 - 14) =
      T.map (fun d => if d < 0 then -d else 0) := by
    rw [lossesOf_cons closes hne]
    have he : n - 1 + 1 - 14 = (n - 15) + 1 := by omega
    rw [he, List.drop_succ_cons, ← List.map_drop]
  have hwg : windowMean 14 (gainsOf closes) (n - 1) =
      some ((T.map (fun d => if 0 < d then d else 0)).sum / (14 : ℚ)) := by
    unfold windowMean
    rw [if_pos ⟨by omega, by rw [hlen]; omega⟩, hdropG,
      List.take_of_length_le (by rw [List.length_map, hTlen])]
    norm_num
  have hwl : windowMean 14 (lossesOf closes) (n - 1) =
      some ((T.map (fun d => if d < 0 then -d else 0)).sum / (14 : ℚ)) := by
    unfold windowMean
    rw [if_pos ⟨by omega, by rw [hlenL]; omega⟩, hdropL,
      List.take_of_length_le (by rw [List.length_map, hTlen])]
    norm_num
  have hgain : 0 < (T.map (fun d => if 0 < d then d else 0)).sum / (14 : ℚ) := by
    apply div_pos
    · apply List.sum_pos
      · intro x hx
        rcases List.mem_map.mp hx with ⟨d, hd, hfd⟩
        have hdpos : 0 < d := hpos d hd
        rw [← hfd, if_pos hdpos]
        exact hdpos
      · intro hnil
        have := congrArg List.length hnil
        rw [List.length_map, hTlen] at this
        simp at this
    · norm_num
  have hloss : (T.map (fun d => if d < 0 then -d else 0)).sum / (14 : ℚ) = 0 := by
    have hz : (T.map (fun d => if d < 0 then -d else 0)).sum = 0 := by
      apply List.sum_eq_zero
      intro x hx
      rcases List.mem_map.mp hx with ⟨d, hd, hfd⟩
      have hdpos : 0 < d := hpos d hd
      rw [← hfd, if_neg (by linarith)]
    rw [hz, zero_div]
  rw [rsiSeries_getElem? closes (n - 1) (by omega)]
  have hr : rsiAt closes (n - 1) = XQ.fin 100 := by
    unfold rsiAt
    rw [hwg, hwl, hloss]
    exact rsiVal_pos_zero _ hgain
  rw [hr]

/-- C7: whenever the RSI column of calculate_indicators holds a finite
value it lies in [0, 100]; and for every series of at least 15 bars
whose trailing 14 deltas are all gains, the final RSI value is exactly
100 — the `rs = gain / 0` division produces IEEE infinity and
`100 - 100 / (1 + inf)` collapses to exactly 100, not infinity or
NaN. -/
theorem c7_rsi (closes : List ℚ) :
    (∀ (i : ℕ) (q : ℚ),
      (rsiSeries closes)[i]? = some (XQ.fin q) → 0 ≤ q ∧ q ≤ 100) ∧
    (15 ≤ closes.length →
      (∀ d ∈ (deltasOf closes).drop (closes.length - 15), 0 < d) →
      (rsiSeries closes)[closes.length - 1]? = some (XQ.fin 100)) :=
  ⟨fun i q h => rsi_defined_bounds closes i q h,
   fun hn hpos => rsi_all_gains closes hn hpos⟩

/-- C7 witness: the strictly increasing 15-bar series 1..15 has all 14
trailing deltas positive; its final RSI is exactly 100, and by the
bounds half of the theorem that value lies in [0, 100]. -/
theorem c7_witness :
    (rsiSeries [(1 : ℚ), 2, 3, 4, 5, 6, 7, 8, 9, 10, 11, 12, 13, 14, 15])[14]? =
      some (XQ.fin 100) ∧ ((0 : ℚ) ≤ 100 ∧ (100 : ℚ) ≤ 100) := by
  have h2 := (c7_rsi [(1 : ℚ), 2, 3, 4, 5, 6, 7, 8, 9, 10, 11, 12, 13, 14, 15]).2
    (by norm_num)
    (by
      intro d hd
      norm_num [deltasOf] at hd
      rw [hd]
      norm_num)
  exact ⟨h2, (c7_rsi [(1 : ℚ), 2, 3, 4, 5, 6, 7, 8, 9, 10, 11, 12, 13, 14, 15]).1
    14 100 h2⟩

theorem argmaxAmp_eq_none (l : List (ℚ × ℚ)) (h : argmaxAmp l = none) :
    l = [] := by
  cases l with
  | nil => rfl
  | cons a rest =>
    unfold argmaxAmp at h
    cases hr : argmaxAmp rest with
    | none => rw [hr] at h; simp at h
    | some b => rw [hr] at h; by_cases hb : b.2 > a.2 <;> simp [hb] at h

theorem argmaxAmp_spec (l : List (ℚ × ℚ)) :
    ∀ c : ℚ × ℚ, argmaxAmp l = some c → c ∈ l ∧ ∀ d ∈ l, d.2 ≤ c.2 := by
  induction l with
  | nil => intro c h; simp [argmaxAmp] at h
  | cons a rest ih =>
    intro c h
    unfold argmaxAmp at h
    cases hr : argmaxAmp rest with
    | none =>
      rw [hr] at h
      have hrest : rest = [] := argmaxAmp_eq_none rest hr
      have hac : a = c := Option.some.inj h
      subst hac
      subst hrest
      exact ⟨List.mem_singleton_self a, by simp⟩
    | some b =>
      rw [hr] at h
      rcases ih b hr with ⟨hbmem, hble⟩
      have h2 : (if b.2 > a.2 then some b else some a) = some c := h
      by_cases hb : b.2 > a.2
      · rw [if_pos hb] at h2
        have hbc : b = c := Option.some.inj h2
        subst hbc
        refine ⟨List.mem_cons_of_mem a hbmem, ?_⟩
        intro d hd
        rcases List.mem_cons.mp hd with hda | hdr
        · rw [hda]; exact le_of_lt hb
        · exact hble d hdr
      · rw [if_neg hb] at h2
        have hac : a = c := Option.some.inj h2
        subst hac
        refine ⟨List.mem_cons_self a rest, ?_⟩
        intro d hd
        rcases List.mem_cons.mp hd with hda | hdr
        · rw [hda]
        · exact le_trans (hble d hdr) (le_of_not_lt hb)

/-- C5 counterexample: a 4-bar series has a single retained positive
bin, of period 4 days, which the [5, 200] band filter removes; the
claim says the dominant component should then be None rather than an
error, but the code reaches `np.argmax` on the empty filtered array and
raises ValueError. -/
theorem c5_counterexample :
    page_fft 4 (fun _ => 0) = FFTOutcome.valueError := by
  norm_num [page_fft, validComponents, componentsOf, posBins, List.range',
    List.filter, argmaxAmp]

/-- C5 (amended): whenever page_fft reports a dominant component, it is
a member of the band-filtered component list and carries the maximum
amplitude within that band (np.argmax takes the first maximum); but
when no retained component falls inside [5, 200] on a nonempty series
the code does not return None — it raises ValueError from argmax on an
empty array. -/
theorem c5_dominant (n : ℕ) (mag : ℕ → ℚ) :
    (∀ p a : ℚ, page_fft n mag = FFTOutcome.ok p a →
      (p, a) ∈ validComponents n mag ∧
      ∀ d ∈ validComponents n mag, d.2 ≤ a) ∧
    (0 < n → validComponents n mag = [] →
      page_fft n mag = FFTOutcome.valueError) := by
  constructor
  · intro p a h
    unfold page_fft at h
    split_ifs at h with hn
    cases hc : argmaxAmp (validComponents n mag) with
    | none =>
      rw [hc] at h
      exact FFTOutcome.noConfusion (show FFTOutcome.valueError =
        FFTOutcome.ok p a from h)
    | some c =>
      rw [hc] at h
      have hspec := argmaxAmp_spec (validComponents n mag) c hc
      have hh : FFTOutcome.ok c.1 c.2 = FFTOutcome.ok p a := h
      rcases (FFTOutcome.ok.injEq _ _ _ _).mp hh with ⟨hp, ha⟩
      subst hp
      subst ha
      constructor
      · simpa using hspec.1
      · exact hspec.2
  · intro hn hempty
    unfold page_fft
    rw [if_neg (by omega), hempty]
    rfl

/-- C5 witness: a 10-bar series keeps bins of periods 10 and 5 in the
band; with magnitudes mag k = k the dominant component is period 5 with
amplitude 2/5, the maximum amplitude in the band. -/
theorem c5_witness :
    ((5 : ℚ), (2/5 : ℚ)) ∈ validComponents 10 (fun k => (k : ℚ)) ∧
    ∀ d ∈ validComponents 10 (fun k => (k : ℚ)), d.2 ≤ (2/5 : ℚ) :=
  (c5_dominant 10 (fun k => (k : ℚ))).1 5 (2/5)
    (by norm_num [page_fft, validComponents, componentsOf, posBins,
      List.range', List.filter, argmaxAmp])

theorem pathVal_none_step (expf : ℚ → ℚ) (sO : Option ℚ) (s0 : ℚ)
    (Z : ℕ → ℕ → ℚ) (i t : ℕ) :
    pathVal expf none sO s0 Z i (t + 1) = none := by
  cases h : pathVal expf none sO s0 Z i t <;> cases sO <;>
    simp [pathVal, stepMul, h]

/-- C4 counterexample: no InsufficientDataError exists in the code.  A
1-bar series passes the `df.empty` guard of both pages; the spectral
page then reaches `np.argmax` on an empty array and raises ValueError
(an unrelated crash, not the claimed error), while the Monte Carlo page
returns a garbage ensemble whose step 0 is the last close and whose
every later step is NaN — a partial result instead of a failure. -/
theorem c4_counterexample :
    page_fft 1 (fun _ => 0) = FFTOutcome.valueError ∧
    FFTOutcome.valueError ≠ FFTOutcome.insufficientData ∧
    mcEntry (page_monte_carlo (fun _ => 0) (fun x => x) none (fun _ _ => 0)
      [(100 : ℚ)]) 0 0 = some (some 100) ∧
    mcEntry (page_monte_carlo (fun _ => 0) (fun x => x) none (fun _ _ => 0)
      [(100 : ℚ)]) 0 1 = some none := by
  refine ⟨?_, by decide, ?_, ?_⟩
  · norm_num [page_fft, validComponents, componentsOf, posBins, List.range',
      argmaxAmp]
  · simp [page_monte_carlo, mcEntry, pathVal, stepMul]
  · simp [page_monte_carlo, mcEntry, logReturns, driftO, meanO, varO, meanQ,
      pathVal, stepMul]

/-- C4 (amended): neither page raises an InsufficientDataError (the
code defines no such error).  The spectral page silently renders
nothing on an empty series and raises ValueError from `np.argmax` on an
empty array for a 1-bar series; the Monte Carlo page shows a plain
error message on an empty series, and on a 1-bar series returns a
partial garbage ensemble whose step 0 is the last close and whose every
later step is NaN, for every path and every draw matrix. -/
theorem c4_guards (mag : ℕ → ℚ) (lnf expf : ℚ → ℚ) (sO : Option ℚ)
    (Z : ℕ → ℕ → ℚ) (c : ℚ) :
    page_fft 0 mag = FFTOutcome.noData ∧
    page_fft 1 mag = FFTOutcome.valueError ∧
    page_monte_carlo lnf expf sO Z [] = none ∧
    mcEntry (page_monte_carlo lnf expf sO Z [c]) 0 0 = some (some c) ∧
    (∀ i t : ℕ,
      mcEntry (page_monte_carlo lnf expf sO Z [c]) i (t + 1) = some none) := by
  refine ⟨rfl, ?_, rfl, ?_, ?_⟩
  · simp [page_fft, validComponents, componentsOf, posBins, List.range',
      argmaxAmp]
  · simp [page_monte_carlo, mcEntry, pathVal, stepMul]
  · intro i t
    have hd : driftO (logReturns lnf [c]) = none := by
      simp [logReturns, driftO, meanO, varO, meanQ]
    simp only [page_monte_carlo, mcEntry, List.getLast?, Option.map]
    rw [hd, pathVal_none_step]

theorem meanQ_replicate (m : ℕ) (r : ℚ) (hm : 1 ≤ m) :
    meanQ (List.replicate m r) = r := by
  unfold meanQ
  rw [List.sum_replicate, List.length_replicate, nsmul_eq_mul]
  exact mul_div_cancel_left₀ r (Nat.cast_ne_zero.mpr (by omega))

theorem meanO_replicate (m : ℕ) (r : ℚ) (hm : 1 ≤ m) :
    meanO (List.replicate m r) = some r := by
  unfold meanO
  rw [if_neg (by simp; omega)]
  rw [meanQ_replicate m r hm]

theorem varO_replicate (m : ℕ) (r : ℚ) (hm : 2 ≤ m) :
    varO (List.replicate m r) = some 0 := by
  unfold varO
  rw [if_neg (by simp; omega)]
  rw [List.map_replicate, meanQ_replicate m r (by omega)]
  rw [List.sum_replicate]
  norm_num

theorem pathVal_const (expf : ℚ → ℚ) (r s0 : ℚ) (Z : ℕ → ℕ → ℚ) (i : ℕ) :
    ∀ t, pathVal expf (some r) (some 0) s0 Z i t = some (s0 * expf r ^ t) := by
  intro t
  induction t with
  | zero => simp [pathVal]
  | succ t ih =>
    rw [pathVal, ih]
    simp only [stepMul, zero_mul, add_zero]
    rw [pow_succ]
    ring_nf

/-- C9: when the historical log returns are all identical (at least two
of them, so the sample statistics are defined and the estimated
volatility - whose square is the ddof-1 variance - is exactly 0), the
Monte Carlo page succeeds and every simulated path is the same
deterministic constant exponential drift curve
last_close * exp(drift)^t with drift = r - 0/2 = r, independent of the
drawn normal variates; in particular every two paths agree at every
step, so the variance across paths is zero everywhere. -/
theorem c9_sigma_zero (lnf expf : ℚ → ℚ) (Z : ℕ → ℕ → ℚ) (closes : List ℚ)
    (s r : ℚ) (m : ℕ) (hm : 2 ≤ m) (hne : closes ≠ [])
    (hret : logReturns lnf closes = List.replicate m r)
    (hsq : varO (logReturns lnf closes) = some (s * s)) :
    (∀ i t : ℕ, mcEntry (page_monte_carlo lnf expf (some s) Z closes) i t =
      some (some (closes.getLastD 0 * expf r ^ t))) ∧
    (∀ i j t : ℕ,
      mcEntry (page_monte_carlo lnf expf (some s) Z closes) i t =
      mcEntry (page_monte_carlo lnf expf (some s) Z closes) j t) := by
  have hvar : varO (logReturns lnf closes) = some 0 := by
    rw [hret]
    exact varO_replicate m r hm
  have hs0 : s = 0 := by
    rw [hvar] at hsq
    exact mul_self_eq_zero.mp (Option.some.inj hsq).symm
  subst hs0
  have hdrift : driftO (logReturns lnf closes) = some r := by
    unfold driftO
    rw [hret, meanO_replicate m r (by omega), varO_replicate m r hm]
    norm_num
  have hgs : closes.getLast?.isSome := List.getLast?_isSome.mpr hne
  rcases Option.isSome_iff_exists.mp hgs with ⟨p0, hp0⟩
  have hlastD : closes.getLastD 0 = p0 := by
    rw [List.getLastD_eq_getLast?, hp0]
    rfl
  have hpage : page_monte_carlo lnf expf (some 0) Z closes =
      some (fun i t =>
        pathVal expf (driftO (logReturns lnf closes)) (some 0) p0 Z i t) := by
    unfold page_monte_carlo
    rw [hp0]
  have hmain : ∀ i t : ℕ,
      mcEntry (page_monte_carlo lnf expf (some 0) Z closes) i t =
        some (some (closes.getLastD 0 * expf r ^ t)) := by
    intro i t
    rw [mcEntry, hpage, hlastD]
    simp only [Option.map_some']
    rw [hdrift, pathVal_const]
  exact ⟨hmain, fun i j t => by rw [hmain i t, hmain j t]⟩

/-- C9 witness: a constant 3-bar series (modelled log returns [0, 0],
variance exactly 0) with exp modelled as x + 1 at the relevant point:
every path entry at step 2 equals 1 * (0 + 1)^2 = 1 regardless of the
draws. -/
theorem c9_witness :
    mcEntry (page_monte_carlo (fun _ => 0) (fun x => x + 1) (some 0)
      (fun _ _ => 5) [(1 : ℚ), 1, 1]) 0 2 = some (some 1) := by
  have h := (c9_sigma_zero (fun _ => 0) (fun x => x + 1) (fun _ _ => 5)
    [(1 : ℚ), 1, 1] 0 0 2 (by norm_num) (by simp) rfl
    (by norm_num [logReturns, varO, meanQ])).1 0 2
  norm_num at h
  exact h

/-- C2: with rng_seed provided, two runs of simulate on identical
(series, horizon_days, path_count, rng_seed) — and the same modelled
draw stream and transcendental routines — produce bit-identical
SimulationEnsemble results: the two outcomes are equal, and in the
success case every simulated path and the ensemble mean path
coincide. -/
theorem c2_deterministic (gen : ℕ → ℕ → ℕ → ℚ) (lnf expf sqrtf : ℚ → ℚ)
    (closes : List ℚ) (horizon path_count rng_seed : ℕ)
    (e1 e2 : Except SimErr SimulationEnsemble)
    (h1 : e1 = simulate gen lnf expf sqrtf closes horizon path_count rng_seed)
    (h2 : e2 = simulate gen lnf expf sqrtf closes horizon path_count rng_seed) :
    e1 = e2 ∧ (∀ ens1 ens2 : SimulationEnsemble,
      e1 = Except.ok ens1 → e2 = Except.ok ens2 →
      ens1.paths = ens2.paths ∧ ens1.meanPath = ens2.meanPath) := by
  subst h1
  subst h2
  refine ⟨rfl, ?_⟩
  intro ens1 ens2 g1 g2
  rw [g1] at g2
  rw [Except.ok.inj g2]
  exact ⟨rfl, rfl⟩

/-- C2 witness: two runs of simulate on a concrete 2-bar series with a
fixed seed, draw stream and modelled transcendental routines are
equal. -/
theorem c2_witness :
    simulate (fun _ _ _ => 1) (fun x => x) (fun x => x) (fun x => x)
      [(1 : ℚ), 2] 3 2 7 =
    simulate (fun _ _ _ => 1) (fun x => x) (fun x => x) (fun x => x)
      [(1 : ℚ), 2] 3 2 7 :=
  (c2_deterministic (fun _ _ _ => 1) (fun x => x) (fun x => x) (fun x => x)
    [(1 : ℚ), 2] 3 2 7 _ _ rfl rfl).1

/-- C8 witness: the spec's manual example, closes [1,2,3,4,5] with long
window 3: index 1 undefined, and MA values 2, 3, 4 at indices 2, 3, 4. -/
theorem c8_witness :
    (calculate_indicators exampleFrame5 2 3).maLong[1]? = some none ∧
    (calculate_indicators exampleFrame5 2 3).maLong[2]? = some (some 2) ∧
    (calculate_indicators exampleFrame5 2 3).maLong[3]? = some (some 3) ∧
    (calculate_indicators exampleFrame5 2 3).maLong[4]? = some (some 4) := by
  have h := c8_long_ma exampleFrame5 2 3 (by norm_num) (by norm_num [exampleFrame5])
  refine ⟨h.2.1 1 (by norm_num), ?_, ?_, ?_⟩
  · have h2 := h.2.2 2 (by norm_num) (by norm_num [exampleFrame5])
    rw [h2]
    norm_num [meanQ, exampleFrame5]
  · have h3 := h.2.2 3 (by norm_num) (by norm_num [exampleFrame5])
    rw [h3]
    norm_num [meanQ, exampleFrame5]
  · have h4 := h.2.2 4 (by norm_num) (by norm_num [exampleFrame5])
    rw [h4]
    norm_num [meanQ, exampleFrame5]
